import Mathlib

/-!
# dtls-srtp-demux: a shallow embedding of the UDP demultiplexing relay

The Go program `dtls-srtp-demux.go` relays UDP datagrams between one client
(`sourceConn`), a primary backend (`targetConn`) and a DTLS backend (`dtlsConn`).
Every loop of the program is modelled by a step function: the environment
supplies the outcome of the blocking read (and whether the following write
fails), the step returns the new local state, the effects performed by the
iteration in program order and whether the loop goes on.
-/

namespace DtlsSrtpDemux

/-- A Go `byte`. -/
abbrev Byte := Fin 256

/-- Capacity of every read buffer: `make([]byte, 1500)`. -/
def bufSize : Nat := 1500

/-- A `*net.UDPAddr`. -/
structure UDPAddr where
  ip : Nat
  port : Nat
  deriving DecidableEq, Repr

/-- The three sockets created by `udpProxyPrepare`. -/
inductive Conn
  | targetConn
  | sourceConn
  | dtlsConn
  deriving DecidableEq, Repr

/-- Effects performed by the program, in program order. -/
inductive Event
  | logLine (msg : String)
  | fatal (msg : String)
  | write (c : Conn) (payload : List Byte)
  | writeToUDP (c : Conn) (payload : List Byte) (addr : UDPAddr)
  | goDtlsReplyLoop
  | goUdpProxyReplyLoop (clientAddr : UDPAddr)
  deriving DecidableEq, Repr

/-- What happens after one loop iteration: the loop goes on to its next
iteration, or `log.Fatal` has terminated the process. -/
inductive Flow
  | next
  | exited
  deriving DecidableEq, Repr

/-- `searchDTLS(buf)`: the line it logs and the value it returns; `none` is the
run-time panic of `buf[0]` on an empty slice. -/
def searchDTLS (buf : List Byte) : Option (String × Bool) :=
  match buf with
  | [] => none
  | b :: _ =>
    if b.val > 19 && b.val < 64 then some ("DTLS packet found", true)
    else if b.val > 127 && b.val < 192 then some ("RTP packet found", false)
    else if b.val < 2 then some ("STUN packet found", false)
    else some ("xx", false)

/-- A successful `Read(readBuf)` / `ReadFromUDP(readBuf)` delivering the bytes `d`:
the first `n = min (len d) (len readBuf)` bytes of the buffer are overwritten, the
rest of the buffer keeps its earlier content, and `n` is returned. -/
def readInto (readBuf d : List Byte) : List Byte × Nat :=
  let n := min d.length readBuf.length
  (d.take n ++ readBuf.drop n, n)

/-- The buffer of a loop that has not read anything yet: `make([]byte, 1500)`. -/
def freshBuf : List Byte := List.replicate bufSize 0

/-! ## dtlsReplyLoop -/

/-- One iteration of the `for` loop of `dtlsReplyLoop`. `rd` is the outcome of
`dtlsConn.ReadFromUDP(readBuf)` (`none` is an error; the sender is discarded by
the code), `writeErr` tells whether `targetConn.Write` fails. -/
def dtlsReplyLoopStep (readBuf : List Byte) (rd : Option (List Byte × UDPAddr))
    (writeErr : Bool) : List Byte × List Event × Flow :=
  match rd with
  | none => (readBuf, [Event.fatal "dtlsReplyLoop: Could not read packet."], Flow.exited)
  | some (d, _) =>
    let (readBuf1, read) := readInto readBuf d
    let w := Event.write Conn.targetConn (readBuf1.take read)
    if writeErr then
      (readBuf1, [w, Event.fatal "Could not forward packet."], Flow.exited)
    else
      (readBuf1, [w], Flow.next)

/-! ## udpProxyReplyLoop -/

/-- State read and written by `udpProxyReplyLoop`: the global `dtlsFound` and the
local `readBuf`. -/
structure ReplyState where
  dtlsFound : Bool
  readBuf : List Byte
  deriving DecidableEq, Repr

/-- State at the start of `udpProxyReplyLoop`: `main` has set `dtlsFound = false`. -/
def ReplyState.start : ReplyState := ⟨false, freshBuf⟩

/-- One iteration of the `for` loop of `udpProxyReplyLoop`. `rd` is the outcome of
`targetConn.Read(readBuf)` (`none` is an error), `writeErr` tells whether the write of
this iteration fails. The code discards what `WriteToUDP` and `Write` return and tests
`err`, the error of the read, which is nil at that point. `none` is a panic. -/
def udpProxyReplyLoopStep (clientAddr : UDPAddr) (s : ReplyState) (rd : Option (List Byte))
    (writeErr : Bool) : Option (ReplyState × List Event × Flow) :=
  match rd with
  | none => some (s, [Event.logLine "udpProxyReplyLoop: Could not read packet."], Flow.next)
  | some d =>
    let (readBuf, read) := readInto s.readBuf d
    let err : Bool := false
    let _ := writeErr
    -- check/update global flag
    let flagged : Option (Bool × List Event) :=
      if !s.dtlsFound then
        match searchDTLS readBuf with
        | none => none
        | some (msg, found) =>
          some (found, Event.logLine msg :: (if found then [Event.goDtlsReplyLoop] else []))
      else some (s.dtlsFound, [])
    match flagged with
    | none => none
    | some (dtlsFound, ev1) =>
      -- check if this particular packet is DTLS
      match searchDTLS readBuf with
      | none => none
      | some (msg, currentPacketIsDTLS) =>
        let ev2 := ev1 ++ [Event.logLine msg]
        if !currentPacketIsDTLS then
          let w := Event.writeToUDP Conn.sourceConn (readBuf.take read) clientAddr
          if err then
            some (⟨dtlsFound, readBuf⟩, ev2 ++ [w, Event.fatal "Could not forward packet."],
              Flow.exited)
          else some (⟨dtlsFound, readBuf⟩, ev2 ++ [w], Flow.next)
        else
          let w := Event.write Conn.dtlsConn (readBuf.take read)
          if err then
            some (⟨dtlsFound, readBuf⟩, ev2 ++ [w, Event.fatal "Could not forward packet."],
              Flow.exited)
          else some (⟨dtlsFound, readBuf⟩, ev2 ++ [w], Flow.next)

/-- The loop of `udpProxyReplyLoop` over a finite sequence of read outcomes (each with
the outcome of the write that follows it): the state reached, every effect performed,
and whether the loop is still running. -/
def udpProxyReplyLoopRun (clientAddr : UDPAddr) (s : ReplyState) :
    List (Option (List Byte) × Bool) → Option (ReplyState × List Event × Flow)
  | [] => some (s, [], Flow.next)
  | (rd, writeErr) :: rest =>
    match udpProxyReplyLoopStep clientAddr s rd writeErr with
    | none => none
    | some (s1, ev, Flow.exited) => some (s1, ev, Flow.exited)
    | some (s1, ev, Flow.next) =>
      match udpProxyReplyLoopRun clientAddr s1 rest with
      | none => none
      | some (s2, ev2, fl) => some (s2, ev ++ ev2, fl)

/-! ## udpProxyConnection -/

/-- Local state of `udpProxyConnection`. -/
structure ConnState where
  newClient : Bool
  readBuf : List Byte
  deriving DecidableEq, Repr

/-- State at the start of `udpProxyConnection`: `newClient := true`. -/
def ConnState.start : ConnState := ⟨true, freshBuf⟩

/-- One iteration of the `for` loop of `udpProxyConnection`. `rd` is the outcome of
`sourceConn.ReadFromUDP(readBuf)` (`none` is an error), `writeErr` tells whether
`targetConn.Write` fails. -/
def udpProxyConnectionStep (s : ConnState) (rd : Option (List Byte × UDPAddr))
    (writeErr : Bool) : ConnState × List Event × Flow :=
  match rd with
  | none => (s, [Event.fatal "udpProxyConnection: Could not read packet."], Flow.exited)
  | some (d, sender) =>
    let (readBuf, read) := readInto s.readBuf d
    let newClient := if s.newClient then false else s.newClient
    let ev1 := if s.newClient then [Event.goUdpProxyReplyLoop sender] else []
    let w := Event.write Conn.targetConn (readBuf.take read)
    if writeErr then
      (⟨newClient, readBuf⟩, ev1 ++ [w, Event.fatal "Could not forward packet."], Flow.exited)
    else
      (⟨newClient, readBuf⟩, ev1 ++ [w], Flow.next)

/-- The loop of `udpProxyConnection` over a finite sequence of read outcomes, each
with the outcome of the write that follows it. -/
def udpProxyConnectionRun (s : ConnState) :
    List (Option (List Byte × UDPAddr) × Bool) → ConnState × List Event × Flow
  | [] => (s, [], Flow.next)
  | (rd, writeErr) :: rest =>
    match udpProxyConnectionStep s rd writeErr with
    | (s1, ev, Flow.exited) => (s1, ev, Flow.exited)
    | (s1, ev, Flow.next) =>
      match udpProxyConnectionRun s1 rest with
      | (s2, ev2, fl) => (s2, ev ++ ev2, fl)

/-! ## Observations on effect traces -/

/-- The socket writes of a trace, in order. -/
def writesOf (evs : List Event) : List Event :=
  evs.filter fun e =>
    match e with
    | Event.write _ _ => true
    | Event.writeToUDP _ _ _ => true
    | _ => false

/-- The payloads written with `Write` on connection `c`, in order. -/
def payloadsTo (c : Conn) : List Event → List (List Byte)
  | [] => []
  | Event.write c1 p :: rest => if c1 = c then p :: payloadsTo c rest else payloadsTo c rest
  | _ :: rest => payloadsTo c rest

/-- Number of times `go dtlsReplyLoop(...)` is executed in a trace. -/
def dtlsLoopStarts (evs : List Event) : Nat :=
  evs.count Event.goDtlsReplyLoop

/-- The client addresses with which `go udpProxyReplyLoop(...)` is executed in a trace. -/
def replyLoopStarts : List Event → List UDPAddr
  | [] => []
  | Event.goUdpProxyReplyLoop a :: rest => a :: replyLoopStarts rest
  | _ :: rest => replyLoopStarts rest

/-- Whether a trace contains a `log.Fatal`. -/
def hasFatal (evs : List Event) : Bool :=
  evs.any fun e =>
    match e with
    | Event.fatal _ => true
    | _ => false

/-- Everything but the log lines of a trace. -/
def dropLogs (evs : List Event) : List Event :=
  evs.filter fun e =>
    match e with
    | Event.logLine _ => false
    | _ => true

/-- A datagram whose first byte lies in [20,63]. -/
def isHandshake (d : List Byte) : Bool :=
  match d with
  | [] => false
  | b :: _ => decide (20 ≤ b.val ∧ b.val ≤ 63)

/-- Whether some datagram successfully read in a sequence of read outcomes is
Handshake-kind. -/
def sawHandshake (ins : List (Option (List Byte) × Bool)) : Bool :=
  ins.any fun p =>
    match p.1 with
    | some d => isHandshake d
    | none => false

/-- The primary-egress iteration as the specification words it: the datagram is
classified once, `k = searchDTLS(readBuf)`, and `k` serves both to update the flag
(starting the secondary loop when the flag flips) and to choose the destination. -/
def udpProxyReplyLoopStepOnce (clientAddr : UDPAddr) (s : ReplyState)
    (rd : Option (List Byte)) (_writeErr : Bool) : Option (ReplyState × List Event × Flow) :=
  match rd with
  | none => some (s, [Event.logLine "udpProxyReplyLoop: Could not read packet."], Flow.next)
  | some d =>
    let (readBuf, read) := readInto s.readBuf d
    match searchDTLS readBuf with
    | none => none
    | some (msg, k) =>
      let startLoop := if !s.dtlsFound && k then [Event.goDtlsReplyLoop] else []
      let w := if k then Event.write Conn.dtlsConn (readBuf.take read)
        else Event.writeToUDP Conn.sourceConn (readBuf.take read) clientAddr
      some (⟨s.dtlsFound || k, readBuf⟩, [Event.logLine msg] ++ startLoop ++ [w], Flow.next)

/-- What an iteration is observed to do, log lines apart: the state it leaves, its
effects other than log lines, and whether the loop goes on. -/
def observe (r : ReplyState × List Event × Flow) : ReplyState × List Event × Flow :=
  (r.1, dropLogs r.2.1, r.2.2)

/-! ## The classifier -/

theorem searchDTLS_cons (b : Byte) (rest : List Byte) :
    searchDTLS (b :: rest) =
      if 20 ≤ b.val ∧ b.val ≤ 63 then some ("DTLS packet found", true)
      else if 128 ≤ b.val ∧ b.val ≤ 191 then some ("RTP packet found", false)
      else if b.val ≤ 1 then some ("STUN packet found", false)
      else some ("xx", false) := by
  simp only [searchDTLS, Bool.and_eq_true, decide_eq_true_eq, gt_iff_lt]
  have e1 : (19 < b.val ∧ b.val < 64) ↔ (20 ≤ b.val ∧ b.val ≤ 63) := by omega
  have e2 : (127 < b.val ∧ b.val < 192) ↔ (128 ≤ b.val ∧ b.val ≤ 191) := by omega
  have e3 : b.val < 2 ↔ b.val ≤ 1 := by omega
  simp only [e1, e2, e3]

theorem searchDTLS_snd (b : Byte) (rest : List Byte) :
    (searchDTLS (b :: rest)).map Prod.snd = some (decide (20 ≤ b.val ∧ b.val ≤ 63)) := by
  rw [searchDTLS_cons]
  split_ifs with h1 h2 h3 <;> simp [h1]

/-- C1: on a non-empty buffer `searchDTLS` is decided by `buf[0]` alone: it logs
"DTLS packet found" and returns true when `buf[0]` is in [20,63], logs "RTP packet found"
and returns false when it is in [128,191], logs "STUN packet found" and returns false
when it is 0 or 1, logs "xx" and returns false for every other byte; so it returns true
exactly when `buf[0]` is in [20,63], and two buffers with the same first byte get the
same answer. -/
theorem searchDTLS_classifies (buf : List Byte) (hne : buf ≠ []) :
    (20 ≤ (buf.head hne).val ∧ (buf.head hne).val ≤ 63 →
        searchDTLS buf = some ("DTLS packet found", true)) ∧
    (128 ≤ (buf.head hne).val ∧ (buf.head hne).val ≤ 191 →
        searchDTLS buf = some ("RTP packet found", false)) ∧
    ((buf.head hne).val ≤ 1 → searchDTLS buf = some ("STUN packet found", false)) ∧
    (¬ (20 ≤ (buf.head hne).val ∧ (buf.head hne).val ≤ 63) →
      ¬ (128 ≤ (buf.head hne).val ∧ (buf.head hne).val ≤ 191) →
      ¬ (buf.head hne).val ≤ 1 → searchDTLS buf = some ("xx", false)) ∧
    ((searchDTLS buf).map Prod.snd = some true ↔
      (20 ≤ (buf.head hne).val ∧ (buf.head hne).val ≤ 63)) ∧
    (∀ (other : List Byte) (ho : other ≠ []),
      other.head ho = buf.head hne → searchDTLS other = searchDTLS buf) := by
  cases buf with
  | nil => exact absurd rfl hne
  | cons b rest =>
    simp only [List.head_cons]
    refine ⟨?_, ?_, ?_, ?_, ?_, ?_⟩
    · intro h
      rw [searchDTLS_cons, if_pos h]
    · intro h
      rw [searchDTLS_cons, if_neg (by omega), if_pos h]
    · intro h
      rw [searchDTLS_cons, if_neg (by omega), if_neg (by omega), if_pos h]
    · intro h1 h2 h3
      rw [searchDTLS_cons, if_neg h1, if_neg h2, if_neg h3]
    · rw [searchDTLS_snd]
      simp
    · intro other ho hh
      cases other with
      | nil => exact absurd rfl ho
      | cons c more =>
        simp only [List.head_cons] at hh
        subst hh
        rw [searchDTLS_cons, searchDTLS_cons]

theorem searchDTLS_classifies_witness :
    searchDTLS [(30 : Byte), 1, 2] = some ("DTLS packet found", true) ∧
    searchDTLS [(160 : Byte)] = some ("RTP packet found", false) ∧
    searchDTLS [(1 : Byte), 9] = some ("STUN packet found", false) ∧
    searchDTLS [(64 : Byte), 9] = some ("xx", false) :=
  ⟨(searchDTLS_classifies [30, 1, 2] (by simp)).1 (by decide),
   (searchDTLS_classifies [160] (by simp)).2.1 (by decide),
   (searchDTLS_classifies [1, 9] (by simp)).2.2.1 (by decide),
   (searchDTLS_classifies [64, 9] (by simp)).2.2.2.1 (by decide) (by decide) (by decide)⟩

/-! ## The read buffer -/

theorem readInto_nil (readBuf : List Byte) : readInto readBuf [] = (readBuf, 0) := by
  simp [readInto]

theorem readInto_length (readBuf d : List Byte) :
    (readInto readBuf d).1.length = readBuf.length := by
  simp only [readInto, List.length_append, List.length_take, List.length_drop]
  omega

theorem readInto_take (readBuf d : List Byte) (hd : d.length ≤ readBuf.length) :
    (readInto readBuf d).1.take (readInto readBuf d).2 = d := by
  simp only [readInto, Nat.min_eq_left hd, List.take_length]
  rw [List.take_append_of_le_length (by simp)]
  simp

theorem readInto_cons (readBuf : List Byte) (b : Byte) (t : List Byte) (hne : readBuf ≠ []) :
    ∃ rest, (readInto readBuf (b :: t)).1 = b :: rest := by
  cases readBuf with
  | nil => exact absurd rfl hne
  | cons c more =>
    refine ⟨t.take (min t.length more.length) ++ more.drop (min t.length more.length), ?_⟩
    simp [readInto, Nat.succ_min_succ]

theorem ne_nil_of_bufSize {l : List Byte} (h : l.length = bufSize) : l ≠ [] := by
  intro hl
  rw [hl] at h
  exact absurd h (by decide)

theorem freshBuf_length : freshBuf.length = bufSize := by
  unfold freshBuf
  exact List.length_replicate _ _

/-! ## One iteration of udpProxyReplyLoop -/

theorem searchDTLS_some (b : Byte) (rest : List Byte) :
    ∃ msg, searchDTLS (b :: rest) = some (msg, decide (20 ≤ b.val ∧ b.val ≤ 63)) := by
  rw [searchDTLS_cons]
  split_ifs with h1 h2 h3
  · exact ⟨"DTLS packet found", by simp [h1]⟩
  · exact ⟨"RTP packet found", by simp [h1]⟩
  · exact ⟨"STUN packet found", by simp [h1]⟩
  · exact ⟨"xx", by simp [h1]⟩

theorem step_of_search (a : UDPAddr) (s : ReplyState) (d : List Byte) (we : Bool)
    (msg : String) (k : Bool) (h : searchDTLS (readInto s.readBuf d).1 = some (msg, k)) :
    udpProxyReplyLoopStep a s (some d) we =
      some (⟨s.dtlsFound || k, (readInto s.readBuf d).1⟩,
        (if s.dtlsFound then [] else
            Event.logLine msg :: (if k then [Event.goDtlsReplyLoop] else [])) ++
          [Event.logLine msg,
            if k then Event.write Conn.dtlsConn
              ((readInto s.readBuf d).1.take (readInto s.readBuf d).2)
            else Event.writeToUDP Conn.sourceConn
              ((readInto s.readBuf d).1.take (readInto s.readBuf d).2) a],
        Flow.next) := by
  unfold udpProxyReplyLoopStep
  simp only [h]
  cases hf : s.dtlsFound <;> cases k <;> simp

/-- Shape of a primary-egress iteration whose read succeeds on a non-empty buffer. -/
theorem step_shape (a : UDPAddr) (s : ReplyState) (d : List Byte) (we : Bool)
    (b : Byte) (rest : List Byte) (h : (readInto s.readBuf d).1 = b :: rest) :
    ∃ msg, udpProxyReplyLoopStep a s (some d) we =
      some (⟨s.dtlsFound || decide (20 ≤ b.val ∧ b.val ≤ 63), (readInto s.readBuf d).1⟩,
        (if s.dtlsFound then [] else
            Event.logLine msg ::
              (if decide (20 ≤ b.val ∧ b.val ≤ 63) then [Event.goDtlsReplyLoop] else [])) ++
          [Event.logLine msg,
            if decide (20 ≤ b.val ∧ b.val ≤ 63) then Event.write Conn.dtlsConn
              ((readInto s.readBuf d).1.take (readInto s.readBuf d).2)
            else Event.writeToUDP Conn.sourceConn
              ((readInto s.readBuf d).1.take (readInto s.readBuf d).2) a],
        Flow.next) := by
  obtain ⟨msg, hmsg⟩ := searchDTLS_some b rest
  rw [← h] at hmsg
  exact ⟨msg, step_of_search a s d we msg _ hmsg⟩

/-- C2: a non-empty datagram of at most 1500 bytes read from Primary is written exactly
once, unchanged: to `dtlsConn` when its first byte is in [20,63], otherwise to the client
address through `sourceConn`; no other write is issued by the iteration. -/
theorem udpProxyReplyLoopStep_routes (clientAddr : UDPAddr) (s : ReplyState)
    (d : List Byte) (writeErr : Bool) (hbuf : s.readBuf.length = bufSize)
    (hne : d ≠ []) (hlen : d.length ≤ 1500) :
    ∃ s1 ev fl, udpProxyReplyLoopStep clientAddr s (some d) writeErr = some (s1, ev, fl) ∧
      writesOf ev =
        [if 20 ≤ (d.head hne).val ∧ (d.head hne).val ≤ 63 then Event.write Conn.dtlsConn d
          else Event.writeToUDP Conn.sourceConn d clientAddr] := by
  cases d with
  | nil => exact absurd rfl hne
  | cons b t =>
    obtain ⟨rest, hrest⟩ := readInto_cons s.readBuf b t (ne_nil_of_bufSize hbuf)
    obtain ⟨msg, hstep⟩ := step_shape clientAddr s (b :: t) writeErr b rest hrest
    have htake := readInto_take s.readBuf (b :: t) (by rw [hbuf]; exact hlen)
    rw [htake] at hstep
    refine ⟨_, _, _, hstep, ?_⟩
    simp only [List.head_cons]
    by_cases hk : 20 ≤ b.val ∧ b.val ≤ 63
    · cases hf : s.dtlsFound <;> simp [writesOf, hk, List.filter]
    · cases hf : s.dtlsFound <;> simp [writesOf, hk, List.filter]

set_option maxRecDepth 100000 in
theorem udpProxyReplyLoopStep_routes_witness :
    (∃ s1 ev fl, udpProxyReplyLoopStep ⟨7, 6001⟩ ReplyState.start (some [30, 5]) false
        = some (s1, ev, fl) ∧
      writesOf ev = [Event.write Conn.dtlsConn [30, 5]]) ∧
    (∃ s1 ev fl, udpProxyReplyLoopStep ⟨7, 6001⟩ ReplyState.start (some [0, 5]) false
        = some (s1, ev, fl) ∧
      writesOf ev = [Event.writeToUDP Conn.sourceConn [0, 5] ⟨7, 6001⟩]) :=
  ⟨udpProxyReplyLoopStep_routes ⟨7, 6001⟩ ReplyState.start [30, 5] false freshBuf_length
      (by simp) (by decide),
   udpProxyReplyLoopStep_routes ⟨7, 6001⟩ ReplyState.start [0, 5] false freshBuf_length
      (by simp) (by decide)⟩

/-- C4, amended: a datagram of at most 1500 bytes read from Secondary by `dtlsReplyLoop`
is written exactly once, unchanged, to `targetConn`; the iteration logs no classification
and performs no other write, whatever the first byte, and goes on unless the write
fails. -/
theorem dtlsReplyLoopStep_forwards (readBuf d : List Byte) (sender : UDPAddr)
    (writeErr : Bool) (hbuf : readBuf.length = bufSize) (hlen : d.length ≤ 1500) :
    writesOf (dtlsReplyLoopStep readBuf (some (d, sender)) writeErr).2.1 =
        [Event.write Conn.targetConn d] ∧
      dropLogs (dtlsReplyLoopStep readBuf (some (d, sender)) writeErr).2.1 =
        (dtlsReplyLoopStep readBuf (some (d, sender)) writeErr).2.1 ∧
      (dtlsReplyLoopStep readBuf (some (d, sender)) writeErr).2.2 =
        (if writeErr then Flow.exited else Flow.next) := by
  have hle : d.length ≤ readBuf.length := by rw [hbuf]; exact hlen
  have htake := readInto_take readBuf d hle
  cases writeErr <;> simp [dtlsReplyLoopStep, htake, hle, writesOf, dropLogs, List.filter]

set_option maxRecDepth 100000 in
theorem dtlsReplyLoopStep_forwards_witness :
    writesOf (dtlsReplyLoopStep freshBuf (some ([30, 1, 2], ⟨9, 8443⟩)) false).2.1 =
        [Event.write Conn.targetConn [30, 1, 2]] ∧
      dropLogs (dtlsReplyLoopStep freshBuf (some ([30, 1, 2], ⟨9, 8443⟩)) false).2.1 =
        (dtlsReplyLoopStep freshBuf (some ([30, 1, 2], ⟨9, 8443⟩)) false).2.1 ∧
      (dtlsReplyLoopStep freshBuf (some ([30, 1, 2], ⟨9, 8443⟩)) false).2.2 =
        (if false then Flow.exited else Flow.next) :=
  dtlsReplyLoopStep_forwards freshBuf [30, 1, 2] ⟨9, 8443⟩ false freshBuf_length (by decide)

theorem readInto_take_any (readBuf d : List Byte) :
    (readInto readBuf d).1.take (readInto readBuf d).2 = d.take readBuf.length := by
  by_cases h : d.length ≤ readBuf.length
  · rw [readInto_take readBuf d h, List.take_of_length_le h]
  · have hmin : min d.length readBuf.length = readBuf.length := by omega
    simp only [readInto, hmin]
    rw [List.take_append_of_le_length (by simp; omega), List.take_take, Nat.min_self]

/-- An iteration of `dtlsReplyLoop` whose read succeeds. -/
theorem dtlsStep_ok (readBuf d : List Byte) (sender : UDPAddr) (we : Bool) :
    dtlsReplyLoopStep readBuf (some (d, sender)) we =
      ((readInto readBuf d).1,
        Event.write Conn.targetConn ((readInto readBuf d).1.take (readInto readBuf d).2) ::
          (if we then [Event.fatal "Could not forward packet."] else []),
        if we then Flow.exited else Flow.next) := by
  cases we <;> rfl

/-- The write of an iteration of `dtlsReplyLoop`, for a datagram of any length: the
payload is what fits in the 1500-byte buffer. -/
theorem dtlsReplyLoopStep_payload (readBuf d : List Byte) (sender : UDPAddr)
    (writeErr : Bool) (hbuf : readBuf.length = bufSize) :
    writesOf (dtlsReplyLoopStep readBuf (some (d, sender)) writeErr).2.1 =
      [Event.write Conn.targetConn (d.take bufSize)] := by
  rw [dtlsStep_ok, readInto_take_any, hbuf]
  cases writeErr <;> simp [writesOf, List.filter]

/-- C4 as stated fails for a datagram longer than the read buffer: a datagram of 1501
bytes read from Secondary on the fresh buffer is not forwarded byte for byte, the write
to `targetConn` carries its first 1500 bytes only. -/
theorem dtlsReplyLoopStep_truncates :
    writesOf (dtlsReplyLoopStep freshBuf
        (some (List.replicate 1501 (22 : Byte), ⟨9, 8443⟩)) false).2.1 =
      [Event.write Conn.targetConn (List.replicate 1500 (22 : Byte))] ∧
    writesOf (dtlsReplyLoopStep freshBuf
        (some (List.replicate 1501 (22 : Byte), ⟨9, 8443⟩)) false).2.1 ≠
      [Event.write Conn.targetConn (List.replicate 1501 (22 : Byte))] := by
  have hp := dtlsReplyLoopStep_payload freshBuf (List.replicate 1501 (22 : Byte))
    ⟨9, 8443⟩ false freshBuf_length
  have ht : (List.replicate 1501 (22 : Byte)).take bufSize = List.replicate 1500 22 := by
    rw [List.take_replicate]
    rfl
  rw [ht] at hp
  refine ⟨hp, ?_⟩
  rw [hp]
  intro h
  have h1 : List.replicate 1500 (22 : Byte) = List.replicate 1501 (22 : Byte) :=
    (Event.write.inj (List.head_eq_of_cons_eq h)).2
  have hl := congrArg List.length h1
  rw [List.length_replicate, List.length_replicate] at hl
  exact absurd hl (by decide)

/-- C10: the iteration of `udpProxyReplyLoop` (classify to update the flag only while
the flag is false, classify again to route) and the iteration that classifies once
leave the same state and perform the same effects other than log lines, in every state
and for every read outcome; and when the source evaluates `searchDTLS` twice, both
evaluations log the same line and return the same value. -/
theorem udpProxyReplyLoopStep_refines_once (clientAddr : UDPAddr) (s : ReplyState)
    (rd : Option (List Byte)) (writeErr : Bool) :
    (udpProxyReplyLoopStep clientAddr s rd writeErr).map observe =
        (udpProxyReplyLoopStepOnce clientAddr s rd writeErr).map observe ∧
      (∀ d s1 ev fl, s.dtlsFound = false →
        udpProxyReplyLoopStep clientAddr s (some d) writeErr = some (s1, ev, fl) →
        ∃ msg k w, searchDTLS s1.readBuf = some (msg, k) ∧ s1.dtlsFound = k ∧
          ev = Event.logLine msg :: (if k then [Event.goDtlsReplyLoop] else []) ++
            [Event.logLine msg, w] ∧
          (k = true ↔ ∃ p, w = Event.write Conn.dtlsConn p)) := by
  constructor
  · cases rd with
    | none => rfl
    | some d =>
      cases hsearch : searchDTLS (readInto s.readBuf d).1 with
      | none =>
        have h1 : udpProxyReplyLoopStep clientAddr s (some d) writeErr = none := by
          unfold udpProxyReplyLoopStep
          simp only [hsearch]
          cases s.dtlsFound <;> simp
        have h2 : udpProxyReplyLoopStepOnce clientAddr s (some d) writeErr = none := by
          unfold udpProxyReplyLoopStepOnce
          simp only [hsearch]
        rw [h1, h2]
      | some r =>
        obtain ⟨msg, k⟩ := r
        rw [step_of_search clientAddr s d writeErr msg k hsearch]
        unfold udpProxyReplyLoopStepOnce
        simp only [hsearch]
        cases s.dtlsFound <;> cases k <;> simp [observe, dropLogs, List.filter]
  · intro d s1 ev fl hf hstep
    cases hsearch : searchDTLS (readInto s.readBuf d).1 with
    | none =>
      have h1 : udpProxyReplyLoopStep clientAddr s (some d) writeErr = none := by
        unfold udpProxyReplyLoopStep
        simp only [hsearch]
        cases s.dtlsFound <;> simp
      rw [h1] at hstep
      exact absurd hstep (by simp)
    | some r =>
      obtain ⟨msg, k⟩ := r
      rw [step_of_search clientAddr s d writeErr msg k hsearch, hf] at hstep
      simp only [Option.some.injEq, Prod.mk.injEq] at hstep
      obtain ⟨hs1, hev, _⟩ := hstep
      subst hs1
      subst hev
      refine ⟨msg, k,
        (if k then Event.write Conn.dtlsConn
            ((readInto s.readBuf d).1.take (readInto s.readBuf d).2)
          else Event.writeToUDP Conn.sourceConn
            ((readInto s.readBuf d).1.take (readInto s.readBuf d).2) clientAddr),
        hsearch, by simp, by simp, ?_⟩
      cases k <;> simp

set_option maxRecDepth 20000 in
theorem udpProxyReplyLoopStep_refines_once_witness :
    ∃ msg k w, searchDTLS ([30, 5] ++ freshBuf.drop 2) = some (msg, k) ∧
      (ReplyState.mk true ([30, 5] ++ freshBuf.drop 2)).dtlsFound = k ∧
      [Event.logLine "DTLS packet found", Event.goDtlsReplyLoop,
          Event.logLine "DTLS packet found", Event.write Conn.dtlsConn [30, 5]] =
        Event.logLine msg :: (if k then [Event.goDtlsReplyLoop] else []) ++
          [Event.logLine msg, w] ∧
      (k = true ↔ ∃ p, w = Event.write Conn.dtlsConn p) :=
  (udpProxyReplyLoopStep_refines_once ⟨7, 6001⟩ ReplyState.start (some [30, 5]) false).2
    [30, 5] ⟨true, [30, 5] ++ freshBuf.drop 2⟩ _ Flow.next rfl rfl

/-- Any iteration of `udpProxyReplyLoop` on a 1500-byte buffer goes on to the next
iteration without `log.Fatal`, whether the read or the write fails or not. -/
theorem udpProxyReplyLoopStep_goes_on (a : UDPAddr) (s : ReplyState)
    (rd : Option (List Byte)) (we : Bool) (hbuf : s.readBuf.length = bufSize) :
    ∃ s1 ev, udpProxyReplyLoopStep a s rd we = some (s1, ev, Flow.next) ∧
      hasFatal ev = false ∧ s1.readBuf.length = bufSize := by
  cases rd with
  | none => exact ⟨s, _, rfl, by simp [hasFatal], hbuf⟩
  | some d =>
    have hlen := readInto_length s.readBuf d
    rw [hbuf] at hlen
    match hb : (readInto s.readBuf d).1, ne_nil_of_bufSize hlen with
    | [], hnil => exact absurd rfl hnil
    | b :: rest, _ =>
      obtain ⟨msg, hstep⟩ := step_shape a s d we b rest hb
      rw [hb] at hstep
      refine ⟨_, _, hstep, ?_, by rw [← hb]; exact hlen⟩
      cases s.dtlsFound <;> by_cases hk : 20 ≤ b.val ∧ b.val ≤ 63 <;> simp [hasFatal, hk]

set_option maxRecDepth 20000 in
/-- C8, evaluated: in `udpProxyReplyLoop` neither a failed read from Primary nor a failed
write to the client or to Secondary terminates the relay; each such iteration performs
no `log.Fatal` and goes on to the next iteration. -/
theorem udpProxyReplyLoopStep_survives_failures :
    (udpProxyReplyLoopStep ⟨7, 6001⟩ ReplyState.start none false).map
        (fun r => (hasFatal r.2.1, r.2.2)) = some (false, Flow.next) ∧
      (udpProxyReplyLoopStep ⟨7, 6001⟩ ReplyState.start (some [160, 5]) true).map
        (fun r => (r.2.1, r.2.2)) =
        some ([Event.logLine "RTP packet found", Event.logLine "RTP packet found",
          Event.writeToUDP Conn.sourceConn [160, 5] ⟨7, 6001⟩], Flow.next) ∧
      (udpProxyReplyLoopStep ⟨7, 6001⟩ ReplyState.start (some [30, 5]) true).map
        (fun r => (r.2.1, r.2.2)) =
        some ([Event.logLine "DTLS packet found", Event.goDtlsReplyLoop,
          Event.logLine "DTLS packet found", Event.write Conn.dtlsConn [30, 5]],
          Flow.next) := by
  decide

set_option maxRecDepth 20000 in
/-- C9, evaluated: an empty datagram read from Primary is routed by the first byte of
an earlier datagram still in the read buffer: to Secondary after the datagram `[30]`,
to the client on a fresh buffer. -/
theorem empty_datagram_routed_by_stale_byte :
    ((udpProxyReplyLoopStep ⟨7, 6001⟩ ReplyState.start (some [30]) false).bind
        (fun r => udpProxyReplyLoopStep ⟨7, 6001⟩ r.1 (some []) false)).map
        (fun r => writesOf r.2.1) = some [Event.write Conn.dtlsConn []] ∧
      (udpProxyReplyLoopStep ⟨7, 6001⟩ ReplyState.start (some []) false).map
        (fun r => writesOf r.2.1) =
        some [Event.writeToUDP Conn.sourceConn [] ⟨7, 6001⟩] := by
  decide

/-! ## Runs of udpProxyReplyLoop -/

theorem sawHandshake_nil : sawHandshake [] = false := rfl

theorem sawHandshake_cons (rd : Option (List Byte)) (we : Bool)
    (rest : List (Option (List Byte) × Bool)) :
    sawHandshake ((rd, we) :: rest) =
      ((match rd with
        | some d => isHandshake d
        | none => false) || sawHandshake rest) := by
  simp [sawHandshake]

theorem sawHandshake_append (l1 l2 : List (Option (List Byte) × Bool)) :
    sawHandshake (l1 ++ l2) = (sawHandshake l1 || sawHandshake l2) := by
  simp [sawHandshake]

/-- One iteration from a state in which a handshake byte left at the head of the buffer
implies that the flag is already set: the iteration goes on, keeps that invariant, sets
the flag exactly when the datagram read is Handshake-kind, and starts the secondary loop
exactly when the flag flips. -/
theorem step_invariant (a : UDPAddr) (s : ReplyState) (rd : Option (List Byte)) (we : Bool)
    (hbuf : s.readBuf.length = bufSize)
    (hstale : isHandshake s.readBuf = true → s.dtlsFound = true) :
    ∃ s1 ev, udpProxyReplyLoopStep a s rd we = some (s1, ev, Flow.next) ∧
      s1.readBuf.length = bufSize ∧
      (isHandshake s1.readBuf = true → s1.dtlsFound = true) ∧
      s1.dtlsFound = (s.dtlsFound || (match rd with
        | some d => isHandshake d
        | none => false)) ∧
      dtlsLoopStarts ev = (if (!s.dtlsFound && (match rd with
        | some d => isHandshake d
        | none => false)) = true then 1 else 0) := by
  cases rd with
  | none =>
    refine ⟨s, _, rfl, hbuf, hstale, by simp, ?_⟩
    simp [dtlsLoopStarts]
  | some d =>
    have hlen := readInto_length s.readBuf d
    rw [hbuf] at hlen
    match hb : (readInto s.readBuf d).1, ne_nil_of_bufSize hlen with
    | [], hnil => exact absurd rfl hnil
    | b :: rest, _ =>
      obtain ⟨msg, hstep⟩ := step_shape a s d we b rest hb
      rw [hb] at hstep
      have hk : isHandshake d = true → (20 ≤ b.val ∧ b.val ≤ 63) := by
        intro hd
        cases d with
        | nil => simp [isHandshake] at hd
        | cons c t =>
          obtain ⟨r2, hr2⟩ := readInto_cons s.readBuf c t (ne_nil_of_bufSize hbuf)
          rw [hb] at hr2
          simp only [List.cons.injEq] at hr2
          rw [hr2.1]
          simpa [isHandshake] using hd
      have hk2 : (20 ≤ b.val ∧ b.val ≤ 63) → isHandshake d = true ∨ s.dtlsFound = true := by
        intro hbk
        cases d with
        | nil =>
          right
          rw [readInto_nil] at hb
          apply hstale
          simp only at hb
          rw [hb]
          simpa [isHandshake] using hbk
        | cons c t =>
          left
          obtain ⟨r2, hr2⟩ := readInto_cons s.readBuf c t (ne_nil_of_bufSize hbuf)
          rw [hb] at hr2
          simp only [List.cons.injEq] at hr2
          rw [← hr2.1]
          simpa [isHandshake] using hbk
      refine ⟨_, _, hstep, by rw [← hb]; exact hlen, ?_, ?_, ?_⟩
      · intro hh
        have : 20 ≤ b.val ∧ b.val ≤ 63 := by simpa [isHandshake] using hh
        simp [this]
      · by_cases hbk : 20 ≤ b.val ∧ b.val ≤ 63
        · rcases hk2 hbk with h | h <;> simp [hbk, h]
        · have : isHandshake d = false := by
            cases hd : isHandshake d
            · rfl
            · exact absurd (hk hd) hbk
          simp [hbk, this]
      · by_cases hbk : 20 ≤ b.val ∧ b.val ≤ 63
        · rcases hk2 hbk with h | h
          · cases hf : s.dtlsFound <;> simp [dtlsLoopStarts, hbk, h]
          · simp [dtlsLoopStarts, hbk, h]
        · have : isHandshake d = false := by
            cases hd : isHandshake d
            · rfl
            · exact absurd (hk hd) hbk
          cases hf : s.dtlsFound <;> simp [dtlsLoopStarts, hbk, this]

theorem dtlsLoopStarts_append (l1 l2 : List Event) :
    dtlsLoopStarts (l1 ++ l2) = dtlsLoopStarts l1 + dtlsLoopStarts l2 := by
  simp [dtlsLoopStarts]

theorem run_invariant (a : UDPAddr) (ins : List (Option (List Byte) × Bool)) :
    ∀ s : ReplyState, s.readBuf.length = bufSize →
      (isHandshake s.readBuf = true → s.dtlsFound = true) →
      ∃ s1 ev, udpProxyReplyLoopRun a s ins = some (s1, ev, Flow.next) ∧
        s1.readBuf.length = bufSize ∧
        (isHandshake s1.readBuf = true → s1.dtlsFound = true) ∧
        s1.dtlsFound = (s.dtlsFound || sawHandshake ins) ∧
        dtlsLoopStarts ev = (if (!s.dtlsFound && sawHandshake ins) = true then 1 else 0) := by
  induction ins with
  | nil =>
    intro s hbuf hstale
    exact ⟨s, [], rfl, hbuf, hstale, by simp [sawHandshake_nil], by
      simp [sawHandshake_nil, dtlsLoopStarts]⟩
  | cons p rest ih =>
    intro s hbuf hstale
    obtain ⟨rd, we⟩ := p
    obtain ⟨s1, ev1, hstep, hbuf1, hstale1, hflag1, hcount1⟩ :=
      step_invariant a s rd we hbuf hstale
    obtain ⟨s2, ev2, hrun, hbuf2, hstale2, hflag2, hcount2⟩ := ih s1 hbuf1 hstale1
    refine ⟨s2, ev1 ++ ev2, ?_, hbuf2, hstale2, ?_, ?_⟩
    · simp only [udpProxyReplyLoopRun, hstep, hrun]
    · rw [hflag2, hflag1, sawHandshake_cons, Bool.or_assoc]
    · rw [dtlsLoopStarts_append, hcount1, hcount2, hflag1, sawHandshake_cons]
      cases s.dtlsFound <;> cases sawHandshake rest <;>
        cases (match rd with
          | some d => isHandshake d
          | none => false) <;> simp

theorem start_invariant :
    ReplyState.start.readBuf.length = bufSize ∧
      (isHandshake ReplyState.start.readBuf = true → ReplyState.start.dtlsFound = true) := by
  refine ⟨freshBuf_length, ?_⟩
  intro h
  have hb : ReplyState.start.readBuf = (0 : Byte) :: List.replicate 1499 0 := rfl
  have : isHandshake ReplyState.start.readBuf = false := by
    rw [hb]
    rfl
  rw [this] at h
  exact absurd h (by simp)

theorem run_append (a : UDPAddr) (l1 l2 : List (Option (List Byte) × Bool)) :
    ∀ (s s1 s2 : ReplyState) (ev1 ev2 : List Event) (fl : Flow),
      udpProxyReplyLoopRun a s l1 = some (s1, ev1, Flow.next) →
      udpProxyReplyLoopRun a s1 l2 = some (s2, ev2, fl) →
      udpProxyReplyLoopRun a s (l1 ++ l2) = some (s2, ev1 ++ ev2, fl) := by
  induction l1 with
  | nil =>
    intro s s1 s2 ev1 ev2 fl h1 h2
    simp only [udpProxyReplyLoopRun, Option.some.injEq, Prod.mk.injEq] at h1
    obtain ⟨hs, hev, _⟩ := h1
    subst hs
    subst hev
    simpa using h2
  | cons p rest ih =>
    intro s s1 s2 ev1 ev2 fl h1 h2
    obtain ⟨rd, we⟩ := p
    simp only [udpProxyReplyLoopRun, List.cons_append] at h1 ⊢
    cases hstep : udpProxyReplyLoopStep a s rd we with
    | none => simp [hstep] at h1
    | some r =>
      obtain ⟨sa, eva, fla⟩ := r
      cases fla with
      | exited => simp [hstep] at h1
      | next =>
        simp only [hstep] at h1 ⊢
        cases hrest : udpProxyReplyLoopRun a sa rest with
        | none => simp [hrest] at h1
        | some r2 =>
          obtain ⟨sb, evb, flb⟩ := r2
          simp only [hrest, Option.some.injEq, Prod.mk.injEq] at h1
          obtain ⟨hs, hev, hfl⟩ := h1
          subst hs
          subst hev
          subst hfl
          have hih := ih sa sb s2 evb ev2 fl hrest h2
          simp only [List.append_eq] at hih ⊢
          rw [hih]
          simp

/-- C5: from the start of `udpProxyReplyLoop`, after any sequence `pre` of read outcomes
the loop is still running and `go dtlsReplyLoop` has been executed once if some datagram
read so far was Handshake-kind and not at all otherwise; the trace of a longer sequence
`pre ++ post` extends the trace of `pre`, and its extension starts the secondary loop
only if `pre` held no Handshake-kind datagram and `post` holds one. -/
theorem dtlsReplyLoop_started_once (clientAddr : UDPAddr)
    (pre post : List (Option (List Byte) × Bool)) :
    ∃ s1 ev1 s2 ev2,
      udpProxyReplyLoopRun clientAddr ReplyState.start pre = some (s1, ev1, Flow.next) ∧
      udpProxyReplyLoopRun clientAddr ReplyState.start (pre ++ post) =
        some (s2, ev1 ++ ev2, Flow.next) ∧
      dtlsLoopStarts ev1 = (if sawHandshake pre = true then 1 else 0) ∧
      dtlsLoopStarts (ev1 ++ ev2) = (if sawHandshake (pre ++ post) = true then 1 else 0) ∧
      dtlsLoopStarts ev2 =
        (if sawHandshake pre = true then 0 else if sawHandshake post = true then 1 else 0) := by
  obtain ⟨hbuf, hstale⟩ := start_invariant
  obtain ⟨s1, ev1, hrun1, hbuf1, hstale1, hflag1, hcount1⟩ :=
    run_invariant clientAddr pre ReplyState.start hbuf hstale
  obtain ⟨s2, ev2, hrun2, _, _, _, hcount2⟩ :=
    run_invariant clientAddr post s1 hbuf1 hstale1
  have hstart : ReplyState.start.dtlsFound = false := rfl
  rw [hstart] at hflag1 hcount1
  rw [hflag1] at hcount2
  refine ⟨s1, ev1, s2, ev2, hrun1,
    run_append clientAddr pre post _ _ _ _ _ _ hrun1 hrun2, ?_, ?_, ?_⟩
  · simpa using hcount1
  · rw [dtlsLoopStarts_append, hcount1, hcount2, sawHandshake_append]
    cases sawHandshake pre <;> cases sawHandshake post <;> simp
  · rw [hcount2]
    cases sawHandshake pre <;> cases sawHandshake post <;> simp

/-- C6: `dtlsFound` is false when `udpProxyReplyLoop` starts; an iteration that finds it
true leaves it true, whatever is read; and after any sequence of read outcomes from the
start it is true exactly when some datagram read so far was Handshake-kind. -/
theorem dtlsFound_monotonic :
    ReplyState.start.dtlsFound = false ∧
    (∀ (clientAddr : UDPAddr) (s : ReplyState) (rd : Option (List Byte)) (writeErr : Bool),
      s.readBuf.length = bufSize → s.dtlsFound = true →
      ∃ s1 ev fl, udpProxyReplyLoopStep clientAddr s rd writeErr = some (s1, ev, fl) ∧
        s1.dtlsFound = true) ∧
    (∀ (clientAddr : UDPAddr) (ins : List (Option (List Byte) × Bool)),
      ∃ s1 ev, udpProxyReplyLoopRun clientAddr ReplyState.start ins =
          some (s1, ev, Flow.next) ∧
        s1.dtlsFound = sawHandshake ins) := by
  refine ⟨rfl, ?_, ?_⟩
  · intro a s rd we hbuf hf
    obtain ⟨s1, ev, hstep, _, _, hflag, _⟩ :=
      step_invariant a s rd we hbuf (fun _ => hf)
    exact ⟨s1, ev, Flow.next, hstep, by rw [hflag, hf]; rfl⟩
  · intro a ins
    obtain ⟨hbuf, hstale⟩ := start_invariant
    obtain ⟨s1, ev, hrun, _, _, hflag, _⟩ :=
      run_invariant a ins ReplyState.start hbuf hstale
    exact ⟨s1, ev, hrun, by rw [hflag]; rfl⟩

set_option maxRecDepth 20000 in
theorem dtlsFound_monotonic_witness :
    ∃ s1 ev fl, udpProxyReplyLoopStep ⟨7, 6001⟩ ⟨true, freshBuf⟩ (some [160, 5]) false =
        some (s1, ev, fl) ∧ s1.dtlsFound = true :=
  dtlsFound_monotonic.2.1 ⟨7, 6001⟩ ⟨true, freshBuf⟩ (some [160, 5]) false freshBuf_length rfl

/-! ## Runs of udpProxyConnection -/

theorem replyLoopStarts_append (l1 l2 : List Event) :
    replyLoopStarts (l1 ++ l2) = replyLoopStarts l1 ++ replyLoopStarts l2 := by
  induction l1 with
  | nil => rfl
  | cons e rest ih => cases e <;> simp [replyLoopStarts, ih]

theorem payloadsTo_append (c : Conn) (l1 l2 : List Event) :
    payloadsTo c (l1 ++ l2) = payloadsTo c l1 ++ payloadsTo c l2 := by
  induction l1 with
  | nil => rfl
  | cons e rest ih =>
    cases e with
    | write c1 p =>
      by_cases hc : c1 = c <;> simp [payloadsTo, hc, ih]
    | logLine m => simp [payloadsTo, ih]
    | fatal m => simp [payloadsTo, ih]
    | writeToUDP c1 p x => simp [payloadsTo, ih]
    | goDtlsReplyLoop => simp [payloadsTo, ih]
    | goUdpProxyReplyLoop x => simp [payloadsTo, ih]

theorem dropLogs_append (l1 l2 : List Event) :
    dropLogs (l1 ++ l2) = dropLogs l1 ++ dropLogs l2 := by
  simp [dropLogs]

theorem writesOf_append (l1 l2 : List Event) :
    writesOf (l1 ++ l2) = writesOf l1 ++ writesOf l2 := by
  simp [writesOf]

/-- An iteration of `udpProxyConnection` whose read succeeds. -/
theorem connStep_ok (s : ConnState) (d : List Byte) (sender : UDPAddr) (we : Bool) :
    udpProxyConnectionStep s (some (d, sender)) we =
      (⟨false, (readInto s.readBuf d).1⟩,
        (if s.newClient then [Event.goUdpProxyReplyLoop sender] else []) ++
          Event.write Conn.targetConn ((readInto s.readBuf d).1.take (readInto s.readBuf d).2) ::
            (if we then [Event.fatal "Could not forward packet."] else []),
        if we then Flow.exited else Flow.next) := by
  cases we <;> cases hn : s.newClient <;> simp [udpProxyConnectionStep, hn]

theorem connRun_cons_ok (s : ConnState) (d : List Byte) (sender : UDPAddr)
    (rest : List (Option (List Byte × UDPAddr) × Bool)) :
    udpProxyConnectionRun s ((some (d, sender), false) :: rest) =
      ((udpProxyConnectionRun ⟨false, (readInto s.readBuf d).1⟩ rest).1,
        ((if s.newClient then [Event.goUdpProxyReplyLoop sender] else []) ++
          [Event.write Conn.targetConn
            ((readInto s.readBuf d).1.take (readInto s.readBuf d).2)]) ++
          (udpProxyConnectionRun ⟨false, (readInto s.readBuf d).1⟩ rest).2.1,
        (udpProxyConnectionRun ⟨false, (readInto s.readBuf d).1⟩ rest).2.2) := by
  simp [udpProxyConnectionRun, connStep_ok]

theorem connRun_cons_err (s : ConnState) (d : List Byte) (sender : UDPAddr)
    (rest : List (Option (List Byte × UDPAddr) × Bool)) :
    udpProxyConnectionRun s ((some (d, sender), true) :: rest) =
      (⟨false, (readInto s.readBuf d).1⟩,
        (if s.newClient then [Event.goUdpProxyReplyLoop sender] else []) ++
          [Event.write Conn.targetConn
            ((readInto s.readBuf d).1.take (readInto s.readBuf d).2),
            Event.fatal "Could not forward packet."],
        Flow.exited) := by
  simp [udpProxyConnectionRun, connStep_ok]

/-- Once `newClient` is false, `udpProxyConnection` never starts `udpProxyReplyLoop`. -/
theorem connRun_no_start (ins : List (Option (List Byte × UDPAddr) × Bool)) :
    ∀ s : ConnState, s.newClient = false →
      replyLoopStarts (udpProxyConnectionRun s ins).2.1 = [] := by
  induction ins with
  | nil => intro s _; rfl
  | cons p rest ih =>
    intro s hs
    obtain ⟨rd, we⟩ := p
    cases rd with
    | none => simp [udpProxyConnectionRun, udpProxyConnectionStep, replyLoopStarts]
    | some r =>
      obtain ⟨d, sender⟩ := r
      cases we with
      | true =>
        rw [connRun_cons_err]
        simp [replyLoopStarts, hs]
      | false =>
        rw [connRun_cons_ok]
        have := ih ⟨false, (readInto s.readBuf d).1⟩ rfl
        simp [replyLoopStarts_append, this, replyLoopStarts, hs]

/-- Every `WriteToUDP` of an iteration of `udpProxyReplyLoop` goes through `sourceConn`
to the address the loop was started with. -/
theorem step_client_writes (a : UDPAddr) (s s1 : ReplyState) (rd : Option (List Byte))
    (we : Bool) (ev : List Event) (fl : Flow)
    (h : udpProxyReplyLoopStep a s rd we = some (s1, ev, fl)) :
    ∀ c p addr, Event.writeToUDP c p addr ∈ ev → c = Conn.sourceConn ∧ addr = a := by
  intro c p addr hmem
  cases rd with
  | none =>
    simp only [udpProxyReplyLoopStep, Option.some.injEq, Prod.mk.injEq] at h
    rw [← h.2.1] at hmem
    simp at hmem
  | some d =>
    cases hsearch : searchDTLS (readInto s.readBuf d).1 with
    | none =>
      have h1 : udpProxyReplyLoopStep a s (some d) we = none := by
        unfold udpProxyReplyLoopStep
        simp only [hsearch]
        cases s.dtlsFound <;> simp
      rw [h1] at h
      exact absurd h (by simp)
    | some r =>
      obtain ⟨msg, k⟩ := r
      rw [step_of_search a s d we msg k hsearch] at h
      simp only [Option.some.injEq, Prod.mk.injEq] at h
      rw [← h.2.1] at hmem
      cases hf : s.dtlsFound <;> cases k <;> simp [hf] at hmem <;> simp [hmem]

theorem run_client_writes (a : UDPAddr) (ins : List (Option (List Byte) × Bool)) :
    ∀ (s s1 : ReplyState) (ev : List Event) (fl : Flow),
      udpProxyReplyLoopRun a s ins = some (s1, ev, fl) →
      ∀ c p addr, Event.writeToUDP c p addr ∈ ev → c = Conn.sourceConn ∧ addr = a := by
  induction ins with
  | nil =>
    intro s s1 ev fl h c p addr hmem
    simp only [udpProxyReplyLoopRun, Option.some.injEq, Prod.mk.injEq] at h
    rw [← h.2.1] at hmem
    simp at hmem
  | cons q rest ih =>
    intro s s1 ev fl h c p addr hmem
    obtain ⟨rd, we⟩ := q
    simp only [udpProxyReplyLoopRun] at h
    cases hstep : udpProxyReplyLoopStep a s rd we with
    | none => simp [hstep] at h
    | some r =>
      obtain ⟨sa, eva, fla⟩ := r
      cases fla with
      | exited =>
        simp only [hstep, Option.some.injEq, Prod.mk.injEq] at h
        rw [← h.2.1] at hmem
        exact step_client_writes a s sa rd we eva _ hstep c p addr hmem
      | next =>
        simp only [hstep] at h
        cases hrest : udpProxyReplyLoopRun a sa rest with
        | none => simp [hrest] at h
        | some r2 =>
          obtain ⟨sb, evb, flb⟩ := r2
          simp only [hrest, Option.some.injEq, Prod.mk.injEq] at h
          rw [← h.2.1] at hmem
          rcases List.mem_append.mp hmem with hm | hm
          · exact step_client_writes a s sa rd we eva _ hstep c p addr hm
          · exact ih sa sb evb flb hrest c p addr hm

/-- C7: whatever follows, when the first read of `udpProxyConnection` delivers a datagram
from `sender`, the loop executes `go udpProxyReplyLoop` exactly once, with `sender`, as
its first effect, before the write that forwards that datagram; and every `WriteToUDP` of
a reply loop started with an address from that trace goes through `sourceConn` to
`sender`. -/
theorem clientAddr_fixed (d0 : List Byte) (sender : UDPAddr) (writeErr0 : Bool)
    (rest : List (Option (List Byte × UDPAddr) × Bool)) :
    replyLoopStarts
        (udpProxyConnectionRun ConnState.start ((some (d0, sender), writeErr0) :: rest)).2.1 =
      [sender] ∧
    (∃ p more,
      (udpProxyConnectionRun ConnState.start ((some (d0, sender), writeErr0) :: rest)).2.1 =
        Event.goUdpProxyReplyLoop sender :: Event.write Conn.targetConn p :: more) ∧
    (∀ a ∈ replyLoopStarts
        (udpProxyConnectionRun ConnState.start ((some (d0, sender), writeErr0) :: rest)).2.1,
      ∀ (s s1 : ReplyState) (ins : List (Option (List Byte) × Bool)) (ev : List Event)
        (fl : Flow), udpProxyReplyLoopRun a s ins = some (s1, ev, fl) →
        ∀ c p addr, Event.writeToUDP c p addr ∈ ev → c = Conn.sourceConn ∧ addr = sender) := by
  have hnew : ConnState.start.newClient = true := rfl
  have hstarts : replyLoopStarts
      (udpProxyConnectionRun ConnState.start ((some (d0, sender), writeErr0) :: rest)).2.1 =
      [sender] := by
    cases writeErr0 with
    | true =>
      rw [connRun_cons_err]
      simp [replyLoopStarts, hnew]
    | false =>
      rw [connRun_cons_ok]
      have := connRun_no_start rest ⟨false, (readInto ConnState.start.readBuf d0).1⟩ rfl
      simp [replyLoopStarts_append, this, replyLoopStarts, hnew]
  refine ⟨hstarts, ?_, ?_⟩
  · cases writeErr0 with
    | true =>
      rw [connRun_cons_err]
      simp only [hnew, if_true, List.cons_append, List.nil_append]
      exact ⟨_, _, rfl⟩
    | false =>
      rw [connRun_cons_ok]
      simp only [hnew, if_true, List.cons_append, List.nil_append]
      exact ⟨_, _, rfl⟩
  · intro a ha s s1 ins ev fl hrun c p addr hmem
    rw [hstarts] at ha
    have hsender : a = sender := by simpa using ha
    subst hsender
    exact run_client_writes a ins s s1 ev fl hrun c p addr hmem

set_option maxRecDepth 20000 in
theorem clientAddr_fixed_witness :
    replyLoopStarts (udpProxyConnectionRun ConnState.start
        [(some ([1, 2], ⟨10, 5000⟩), false), (some ([3], ⟨11, 5001⟩), false)]).2.1 =
      [⟨10, 5000⟩] ∧
    (Conn.sourceConn = Conn.sourceConn ∧ (⟨10, 5000⟩ : UDPAddr) = ⟨10, 5000⟩) :=
  ⟨(clientAddr_fixed [1, 2] ⟨10, 5000⟩ false [(some ([3], ⟨11, 5001⟩), false)]).1,
   (clientAddr_fixed [1, 2] ⟨10, 5000⟩ false [(some ([3], ⟨11, 5001⟩), false)]).2.2
      ⟨10, 5000⟩ (by decide) ReplyState.start
      ⟨false, [160, 9] ++ freshBuf.drop 2⟩ [(some [160, 9], false)]
      [Event.logLine "RTP packet found", Event.logLine "RTP packet found",
        Event.writeToUDP Conn.sourceConn [160, 9] ⟨10, 5000⟩] Flow.next rfl
      Conn.sourceConn [160, 9] ⟨10, 5000⟩ (by decide)⟩

/-- Forwarding by `udpProxyConnection` from any state with a 1500-byte buffer. -/
theorem connRun_forwards (ins : List (List Byte × UDPAddr)) :
    ∀ s : ConnState, s.readBuf.length = bufSize → (∀ p ∈ ins, p.1.length ≤ 1500) →
      payloadsTo Conn.targetConn
          (udpProxyConnectionRun s (ins.map fun p => (some p, false))).2.1 =
        ins.map Prod.fst ∧
      writesOf (udpProxyConnectionRun s (ins.map fun p => (some p, false))).2.1 =
        ins.map (fun p => Event.write Conn.targetConn p.1) ∧
      dropLogs (udpProxyConnectionRun s (ins.map fun p => (some p, false))).2.1 =
        (udpProxyConnectionRun s (ins.map fun p => (some p, false))).2.1 ∧
      (udpProxyConnectionRun s (ins.map fun p => (some p, false))).2.2 = Flow.next := by
  induction ins with
  | nil => intro s _ _; exact ⟨rfl, rfl, rfl, rfl⟩
  | cons q rest ih =>
    intro s hbuf hlen
    obtain ⟨d, sender⟩ := q
    have hd : d.length ≤ s.readBuf.length := by
      rw [hbuf]
      exact hlen (d, sender) (List.mem_cons_self _ _)
    have hbuf1 : (readInto s.readBuf d).1.length = bufSize := by
      rw [readInto_length, hbuf]
    obtain ⟨ih1, ih2, ih3, ih4⟩ := ih ⟨false, (readInto s.readBuf d).1⟩ hbuf1
      (fun p hp => hlen p (List.mem_cons_of_mem _ hp))
    simp only [List.map_cons]
    rw [connRun_cons_ok, readInto_take s.readBuf d hd]
    refine ⟨?_, ?_, ?_, ih4⟩
    · rw [payloadsTo_append, payloadsTo_append, ih1]
      cases s.newClient <;> simp [payloadsTo]
    · rw [writesOf_append, writesOf_append, ih2]
      cases s.newClient <;> simp [writesOf, List.filter]
    · rw [dropLogs_append, dropLogs_append, ih3]
      cases s.newClient <;> simp [dropLogs, List.filter]

/-- C3: for every sequence of datagrams of at most 1500 bytes read by
`udpProxyConnection` from its start, every write succeeding, the payloads written to
`targetConn` are exactly the datagrams read, in order, these are the only writes of the
loop, no classification is logged, and the loop is still running; no condition is put on
the content of the datagrams. -/
theorem udpProxyConnection_forwards_all (ins : List (List Byte × UDPAddr))
    (hlen : ∀ p ∈ ins, p.1.length ≤ 1500) :
    payloadsTo Conn.targetConn
        (udpProxyConnectionRun ConnState.start (ins.map fun p => (some p, false))).2.1 =
      ins.map Prod.fst ∧
    writesOf (udpProxyConnectionRun ConnState.start (ins.map fun p => (some p, false))).2.1 =
      ins.map (fun p => Event.write Conn.targetConn p.1) ∧
    dropLogs (udpProxyConnectionRun ConnState.start (ins.map fun p => (some p, false))).2.1 =
      (udpProxyConnectionRun ConnState.start (ins.map fun p => (some p, false))).2.1 ∧
    (udpProxyConnectionRun ConnState.start (ins.map fun p => (some p, false))).2.2 =
      Flow.next :=
  connRun_forwards ins ConnState.start freshBuf_length hlen

theorem udpProxyConnection_forwards_all_witness :
    payloadsTo Conn.targetConn
        (udpProxyConnectionRun ConnState.start
          ([([30, 1], (⟨10, 5000⟩ : UDPAddr)), ([], ⟨11, 5001⟩), ([160], ⟨10, 5000⟩)].map
            fun p => (some p, false))).2.1 =
      [([30, 1], (⟨10, 5000⟩ : UDPAddr)), ([], ⟨11, 5001⟩), ([160], ⟨10, 5000⟩)].map Prod.fst :=
  (udpProxyConnection_forwards_all
    [([30, 1], ⟨10, 5000⟩), ([], ⟨11, 5001⟩), ([160], ⟨10, 5000⟩)] (by decide)).1

end DtlsSrtpDemux
